import Mathlib

/-!
Verification of the CDMX air-quality data module (`src/airqualitydata.js`).

The file gives a shallow embedding of the three core functions
`parseAirQualityHtml`, `processAirQualityData` and `getAirQualityCategory`
and proves or refutes the specification claims about them.

Modelling conventions:
* JavaScript numbers are modelled as `ℚ` (exact rationals).  The module only
  compares, adds and divides values, and on the rationals representable as
  IEEE doubles these operations agree in ordering with the double versions.
  All concrete arithmetic is routed through `Rat.divInt` and integer
  operations so that closed instances evaluate inside the kernel; bridge
  lemmas identify these with the ordinary `+` and `/` on `ℚ`.
* The DOM is abstracted: the browser parses markup into a list of tables,
  each table a list of rows, each row the list of the text contents of its
  `td` cells.  `parseAirQualityHtml` consumes that structure together with
  the raw markup text (whose length the code inspects).
* The wall clock read by `new Date()` is passed explicitly as a `Now` value.
* String primitives (`trim`, `toLowerCase`, `toUpperCase`, `padStart`,
  `split`, `includes`, `parseInt`, `parseFloat`, regular-expression search)
  are modelled character-wise on ASCII text, matching their JavaScript
  behaviour on the inputs the module handles (the `0x` radix prefix of
  `parseInt` is not modelled; all uses here are decimal digit strings).
-/

/-- Whitespace test used by the model of `String.prototype.trim`. -/
def isWsChar (c : Char) : Bool :=
  c = ' ' ∨ c = '\t' ∨ c = '\n' ∨ c = '\r' ∨ c = '\x0b' ∨ c = '\x0c'

/-- Model of `s.trim()`: strip leading and trailing whitespace. -/
def jsTrim (s : String) : String :=
  String.mk (((s.data.dropWhile isWsChar).reverse.dropWhile isWsChar).reverse)

/-- Model of `s.toLowerCase()` on ASCII text. -/
def jsToLower (s : String) : String := String.mk (s.data.map Char.toLower)

/-- Model of `s.toUpperCase()` on ASCII text. -/
def jsToUpper (s : String) : String := String.mk (s.data.map Char.toUpper)

/-- Model of `s.padStart(2, '0')`. -/
def pad2 (s : String) : String :=
  if 2 ≤ s.length then s else String.mk (List.replicate (2 - s.length) '0') ++ s

/-- Model of `n.toString().padStart(2, '0')` for a natural number. -/
def natPad2 (n : Nat) : String := pad2 (toString n)

/-- Numeric value of a string of decimal digits. -/
def digitsToNat (s : String) : Nat :=
  s.data.foldl (fun n c => n * 10 + (c.toNat - '0'.toNat)) 0

/-- Model of `parseInt(s)` (decimal): skip leading whitespace, read an
optional sign and then leading digits; `none` models `NaN`. -/
def jsParseIntOpt (s : String) : Option Int :=
  let l := s.data.dropWhile isWsChar
  let readDigits : List Char → Option Nat := fun cs =>
    let run := cs.takeWhile Char.isDigit
    if run.isEmpty then none else some (digitsToNat (String.mk run))
  match l with
  | '-' :: rest => (readDigits rest).map (fun n => -(n : Int))
  | '+' :: rest => (readDigits rest).map (fun n => (n : Int))
  | _ => (readDigits l).map (fun n => (n : Int))

/-- First maximal run of decimal digits in a character list: the capture
group of the regular expression `/(\d+)/`. -/
def firstDigitRun : List Char → Option (List Char)
  | [] => none
  | c :: rest =>
    if c.isDigit then some (c :: rest.takeWhile Char.isDigit)
    else firstDigitRun rest

/-- Separator class `[\/\-]` of the date regular expression. -/
def isDateSep (c : Char) : Bool := c = '/' ∨ c = '-'

/-- Try to match `(\d+)[\/\-](\d+)[\/\-](\d+)` anchored at the head of the
list, returning the three capture groups.  Greedy digit runs followed by a
mandatory separator admit no backtracking, so maximal runs are faithful. -/
def tryDateMatchAt (l : List Char) : Option (String × String × String) :=
  let d1 := l.takeWhile Char.isDigit
  if d1.isEmpty then none else
  match l.dropWhile Char.isDigit with
  | c1 :: r1 =>
    if isDateSep c1 then
      let d2 := r1.takeWhile Char.isDigit
      if d2.isEmpty then none else
      match r1.dropWhile Char.isDigit with
      | c2 :: r2 =>
        if isDateSep c2 then
          let d3 := r2.takeWhile Char.isDigit
          if d3.isEmpty then none else
          some (String.mk d1, String.mk d2, String.mk d3)
        else none
      | [] => none
    else none
  | [] => none

/-- Leftmost match of `/(\d+)[\/\-](\d+)[\/\-](\d+)/`: the scan advances one
character at a time, exactly like the regular-expression engine. -/
def findDateMatch : List Char → Option (String × String × String)
  | [] => none
  | c :: rest =>
    match tryDateMatchAt (c :: rest) with
    | some g => some g
    | none => findDateMatch rest

/-- Model of `needle` being a leading piece of `hay` (character lists). -/
def leadsList : List Char → List Char → Bool
  | [], _ => true
  | _ :: _, [] => false
  | a :: as, b :: bs => a == b && leadsList as bs

/-- Model of `hay.includes(needle)` on character lists. -/
def hasSub (needle : List Char) : List Char → Bool
  | [] => needle.isEmpty
  | c :: rest => leadsList needle (c :: rest) || hasSub needle rest

/-- Model of `hay.includes(needle)` on strings. -/
def strIncludes (hay needle : String) : Bool := hasSub needle.data hay.data

/-- Model of `s.split(' ')` on character lists: split at every space,
keeping empty pieces, as JavaScript does for a one-character separator. -/
def splitOnSpace : List Char → List (List Char)
  | [] => [[]]
  | c :: rest =>
    if c = ' ' then [] :: splitOnSpace rest
    else
      match splitOnSpace rest with
      | [] => [[c]]
      | g :: gs => (c :: g) :: gs

/-- Model of `s.split(' ')` on strings. -/
def jsSplitSpace (s : String) : List String := (splitOnSpace s.data).map String.mk

/-- Kernel-reducible addition on `ℚ`, used for the running sums; identified
with `+` by `ratAdd_eq`. -/
def ratAdd (a b : ℚ) : ℚ := Rat.divInt (a.num * b.den + b.num * a.den) (a.den * b.den)

/-- Kernel-reducible division of a rational by a natural number, used for the
averages; identified with `/` by `ratDivNat_eq`. -/
def ratDivNat (s : ℚ) (c : Nat) : ℚ := Rat.divInt s.num (s.den * c)

/-- Model of `parseFloat(x.toFixed(1))`: round to one decimal digit, halves
away from zero.  For `0 ≤ q` the value is `⌊10q + 1/2⌋ / 10`, written with
integer floor division so that it evaluates in the kernel. -/
def roundHalfAwayTenths (q : ℚ) : ℚ :=
  if 0 ≤ q.num then Rat.divInt ((20 * q.num + q.den).fdiv (2 * q.den)) 10
  else Rat.divInt (-((20 * (-q.num) + q.den).fdiv (2 * q.den))) 10

/-- Model of `parseFloat(cleanText)` where `cleanText` contains only decimal
digits and dots: an optional integer part, an optional dot, an optional
fraction part; `none` models `NaN` (no digit consumed). -/
def jsParseFloatClean (s : String) : Option ℚ :=
  let l := s.data
  let ip := l.takeWhile Char.isDigit
  let rest := l.dropWhile Char.isDigit
  let fp : List Char :=
    match rest with
    | '.' :: r => r.takeWhile Char.isDigit
    | _ => []
  if ip.isEmpty ∧ fp.isEmpty then none
  else some (Rat.divInt (digitsToNat (String.mk (ip ++ fp))) (10 ^ fp.length))

/-- Stand-in for `Number.prototype.toString`.  It is exact on integers; the
shortest-round-trip decimal rendering of doubles is not modelled and no
claim inspects this field on numeric observations. -/
def jsNumToString (q : ℚ) : String :=
  if q.den = 1 then toString q.num
  else toString q.num ++ "/" ++ toString q.den

/-- Truthiness of an optional string: JavaScript treats both `null` and the
empty string as falsy. -/
def optTruthy : Option String → Bool
  | none => false
  | some s => s ≠ ""

/-- One parsed observation, as pushed onto `data` by `parseAirQualityHtml`.
A `value` of `none` models the preserved `null` for missing-data tokens. -/
structure Obs where
  date : String
  hour : String
  value : Option ℚ
  rawValue : String
  station : String
  parameter : String
deriving DecidableEq, Repr

/-- The wall clock read by `new Date()` at the start of the row walk. -/
structure Now where
  year : Int
  month : Nat
  day : Nat
  hour : Nat
deriving DecidableEq, Repr

/-- Runtime faults of the JavaScript engine. -/
inductive JsError where
  | referenceError (name : String)
deriving DecidableEq, Repr

/-- The special-value list of line 274:
`['', '-', 'n/d', 'nr', 'nv', '**', 'na', 'n/a']`. -/
def missingTokens : List String := ["", "-", "n/d", "nr", "nv", "**", "na", "n/a"]

/-- Body of the station loop (lines 268-308) for one cell: trim the text;
a truthy trimmed text that is a recognized missing token yields one
null-valued observation with the uppercased token as `rawValue`; otherwise
the text is stripped to digits and dots and parsed, an unparseable cell
yielding nothing. -/
def processStationCell (parameter year month rowDay formattedHour stationName text : String) :
    List Obs :=
  let valueText := jsTrim text
  if valueText = "" then []
  else if missingTokens.contains (jsToLower valueText) then
    [{ date := year ++ "-" ++ month ++ "-" ++ rowDay, hour := formattedHour,
       value := none, rawValue := jsToUpper valueText,
       station := stationName, parameter := parameter }]
  else
    let cleanText := String.mk (valueText.data.filter (fun c => c.isDigit || c = '.'))
    if cleanText = "" then []
    else
      match jsParseFloatClean cleanText with
      | none => []
      | some v =>
        [{ date := year ++ "-" ++ month ++ "-" ++ rowDay, hour := formattedHour,
           value := some v, rawValue := jsNumToString v,
           station := stationName, parameter := parameter }]

/-- Hour extraction of lines 222-233: when the hour column is inside the
row, the first digit run of the trimmed cell text parsed with `parseInt`;
`none` models the hour staying `null`. -/
def extractRowHour (horaIndex : Nat) (cells : List String) : Option Nat :=
  if horaIndex < cells.length then
    (firstDigitRun (jsTrim (cells.getD horaIndex "")).data).map
      (fun run => digitsToNat (String.mk run))
  else none

/-- Day resolution of lines 197-220: start from the day context, overwrite
it from a date match in the fecha cell using the magnitude heuristics, then
fall back to `specificDay`; `none` models the `continue` that skips the
row. -/
def resolveRowDay (day specificDay : Option String) (fechaIndex : Option Nat)
    (cells : List String) : Option String :=
  let rowDay :=
    match fechaIndex with
    | some fi =>
      if fi < cells.length then
        match findDateMatch (jsTrim (cells.getD fi "")).data with
        | some (m1, m2, m3) =>
          if 31 < digitsToNat m3 then some (pad2 m1)
          else if 31 < digitsToNat m1 then some (pad2 m3)
          else some (pad2 m2)
        | none => day
      else day
    | none => day
  if optTruthy rowDay then rowDay
  else if optTruthy specificDay then some (pad2 ((specificDay.getD "")))
  else none

/-- Equality test `parseInt(s) === n` (false when the parse is `NaN`). -/
def jsIntEq (a : Option Int) (n : Int) : Bool :=
  match a with
  | some x => x == n
  | none => false

/-- Comparison `parseInt(s) > parseInt(t)` (false when either is `NaN`). -/
def jsIntGT (a b : Option Int) : Bool :=
  match a, b with
  | some x, some y => y < x
  | _, _ => false

/-- The future-hour filter of lines 245-257: `isFutureDay`, or the current
day combined with an hour beyond the current hour. -/
def futureSkip (year month rowDay : String) (hour : Nat) (now : Now) : Bool :=
  let currentMonth := natPad2 now.month
  let currentDay := natPad2 now.day
  let isCurrentDay :=
    jsIntEq (jsParseIntOpt year) now.year && (month == currentMonth) && (rowDay == currentDay)
  let isFutureDay :=
    jsIntGT (jsParseIntOpt year) (some now.year)
      || (jsIntEq (jsParseIntOpt year) now.year
            && jsIntGT (jsParseIntOpt month) (jsParseIntOpt currentMonth))
      || (jsIntEq (jsParseIntOpt year) now.year && (month == currentMonth)
            && jsIntGT (jsParseIntOpt rowDay) (jsParseIntOpt currentDay))
  isFutureDay || (isCurrentDay && decide (now.hour < hour))

/-- One iteration of the data-row loop (lines 189-310): skip short rows,
resolve the day and the hour, apply the specific-hour and future filters,
then emit the observations of every resolved station column that lies
inside the row. -/
def processDataRow (parameter year month : String) (day specificDay : Option String)
    (specificHour : Option Nat) (fechaIndex : Option Nat)
    (horaIndex stationStartIndex : Nat) (stationIndices : List (String × Nat))
    (now : Now) (cells : List String) : List Obs :=
  if cells.length ≤ stationStartIndex then []
  else
    match resolveRowDay day specificDay fechaIndex cells with
    | none => []
    | some rowDay =>
      match extractRowHour horaIndex cells with
      | none => []
      | some hour =>
        if 23 < hour then []
        else if (match specificHour with | some sh => decide (sh ≠ hour) | none => false) then []
        else if futureSkip year month rowDay hour now then []
        else
          let formattedHour := natPad2 hour
          stationIndices.flatMap (fun si =>
            if cells.length ≤ si.2 then []
            else processStationCell parameter year month rowDay formattedHour si.1
              (cells.getD si.2 ""))

/-- Model of `Map.prototype.set`: update an existing key in place, keeping
its original position, otherwise append. -/
def mapSet : List (String × Nat) → String → Nat → List (String × Nat)
  | [], k, v => [(k, v)]
  | (k1, v1) :: rest, k, v =>
    if k1 = k then (k1, v) :: rest else (k1, v1) :: mapSet rest k v

/-- Station-column resolution of lines 160-174: every nonempty header text
after the hour column, subject to the exact-match station filter. -/
def buildStationIndices (headerTexts : List String) (stationStartIndex : Nat)
    (specificStation : Option String) : List (String × Nat) :=
  headerTexts.enum.foldl
    (fun m entry =>
      if entry.1 < stationStartIndex then m
      else
        let stationName := jsTrim entry.2
        if stationName = "" then m
        else if optTruthy specificStation ∧ stationName ≠ specificStation.getD "" then m
        else mapSet m stationName entry.1)
    []

/-- Header search of lines 147-151: first index whose lowercased text equals
or contains the label. -/
def findHeaderIdx (label : String) (headerTexts : List String) : Option Nat :=
  headerTexts.findIdx?
    (fun t => jsToLower t = label ∨ strIncludes (jsToLower t) label)

/-- Lines 143-310 of `parseAirQualityHtml`, once a header row is fixed:
resolve the fecha and hora columns (a missing hora column is a hard
failure), the station columns and the day context, then walk the data rows
starting at index 2. -/
def parseWithHeader (parameter year month : String) (specificDay : Option String)
    (specificHour : Option Nat) (specificStation : Option String) (now : Now)
    (rows : List (List String)) (headerCells : List String) : List Obs :=
  let headerTexts := headerCells.map jsTrim
  match findHeaderIdx "hora" headerTexts with
  | none => []
  | some horaIndex =>
    let fechaIndex := findHeaderIdx "fecha" headerTexts
    let stationStartIndex := horaIndex + 1
    let stationIndices := buildStationIndices headerTexts stationStartIndex specificStation
    let day : Option String :=
      if optTruthy specificDay then some (pad2 (specificDay.getD "")) else none
    (rows.drop 2).flatMap
      (processDataRow parameter year month day specificDay specificHour fechaIndex
        horaIndex stationStartIndex stationIndices now)

/-- Table selection of lines 94-104: the table with the most rows, the
first one on ties. -/
def selectDataTable (t0 : List (List String)) (rest : List (List (List String))) :
    List (List String) :=
  rest.foldl (fun best t => if best.length < t.length then t else best) t0

/-- The alternative-header scan of lines 130-137: the first of rows 2-4
with at least two cells. -/
def altHeaderRow (rows : List (List String)) : Option (List String) :=
  ((rows.drop 2).take 3).find? (fun r => 2 ≤ r.length)

/-- Header-row resolution of lines 109-141.  The header cells come from the
second row; with fewer than two cells the pm25 branch scans for an
alternative header row, and finding one runs `headerCells = altHeaderCells`,
an assignment to a `const` binding whose `TypeError` is caught by the
enclosing `try` so that the accumulated (empty) data is returned — modelled
as `none`.  Other parameters return empty directly. -/
def resolvedHeaderCells (rows : List (List String)) (parameter : String) :
    Option (List String) :=
  let headerCells := rows.getD 1 []
  if 2 ≤ headerCells.length then some headerCells
  else if parameter = "pm25" ∨ parameter = "pm25nowCast" then
    if (altHeaderRow rows).isSome then none else some headerCells
  else none

/-- Lines 68-318 of `parseAirQualityHtml`: the guard on short markup, table
selection, header resolution and the row walk.  This is the whole function
except the misplaced debug block of lines 60-66 (see
`parseAirQualityHtml`). -/
def parseAirQualityHtmlBody (html : String) (tables : List (List (List String)))
    (parameter year month : String) (specificDay : Option String)
    (specificHour : Option Nat) (specificStation : Option String) (now : Now) :
    List Obs :=
  if html.length < 100 then []
  else
    match tables with
    | [] => []
    | t0 :: rest =>
      let dataTable := selectDataTable t0 rest
      if dataTable.length < 2 then []
      else
        match resolvedHeaderCells dataTable parameter with
        | none => []
        | some headerCells =>
          parseWithHeader parameter year month specificDay specificHour specificStation
            now dataTable headerCells

/-- The debug block of lines 60-66 sits before the `try` statement and reads
`tables.length`, but the only declaration of `tables` is the `const` on
line 82 inside the later `try` block, so the identifier is unresolved at
that point and evaluating the block throws a `ReferenceError`. -/
def debugPreludeFault : Except JsError Unit :=
  Except.error (JsError.referenceError "tables")

/-- The function `parseAirQualityHtml` as written (lines 58-319): the debug
prelude runs first and faults on every call; the remainder of the function
is `parseAirQualityHtmlBody`. -/
def parseAirQualityHtml (html : String) (tables : List (List (List String)))
    (parameter year month : String) (specificDay : Option String)
    (specificHour : Option Nat) (specificStation : Option String) (now : Now) :
    Except JsError (List Obs) := do
  let _ ← debugPreludeFault
  pure (parseAirQualityHtmlBody html tables parameter year month specificDay
    specificHour specificStation now)

/-- One hourly-average record as produced by `processAirQualityData`. -/
structure HourlyAverage where
  date : String
  hour : String
  value : ℚ
  stationCount : Nat
deriving DecidableEq, Repr

/-- Result record of `processAirQualityData`.  The `stations` object is
modelled as an association list in insertion order. -/
structure ProcessResult where
  stations : List (String × List Obs)
  hourlyAverages : List HourlyAverage
deriving DecidableEq, Repr

/-- Lookup in an association list, the access `obj[key]`. -/
def assocFind {α : Type} : List (String × α) → String → Option α
  | [], _ => none
  | (k1, v) :: rest, k => if k1 = k then some v else assocFind rest k

/-- Station grouping step of lines 329-334: push the item onto its station
group, creating the group on first sight. -/
def addToStationGroup : List (String × List Obs) → Obs → List (String × List Obs)
  | [], o => [(o.station, [o])]
  | (k, l) :: rest, o =>
    if k = o.station then (k, l ++ [o]) :: rest
    else (k, l) :: addToStationGroup rest o

/-- Sum/count update of lines 343-352 for one key. -/
def hourlyUpdate : List (String × ℚ × Nat) → String → ℚ → List (String × ℚ × Nat)
  | [], k, v => [(k, v, 1)]
  | (k1, s, c) :: rest, k, v =>
    if k1 = k then (k1, ratAdd s v, c + 1) :: rest
    else (k1, s, c) :: hourlyUpdate rest k v

/-- The string key `date + ' ' + hour` of line 343. -/
def hourlyKey (o : Obs) : String := o.date ++ " " ++ o.hour

/-- Hourly accumulation step of lines 339-353: null values are skipped. -/
def addHourly (m : List (String × ℚ × Nat)) (o : Obs) : List (String × ℚ × Nat) :=
  match o.value with
  | none => m
  | some v => hourlyUpdate m (hourlyKey o) v

/-- Lines 355-362: turn one accumulated entry into an `HourlyAverage`,
recovering date and hour by splitting the key on spaces and rounding the
mean to one decimal. -/
def mkAverage (e : String × ℚ × Nat) : HourlyAverage :=
  let parts := jsSplitSpace e.1
  { date := parts.getD 0 "", hour := parts.getD 1 "",
    value := roundHalfAwayTenths (ratDivNat e.2.1 e.2.2),
    stationCount := e.2.2 }

/-- Sort order of lines 363-367: date first (string comparison standing in
for `localeCompare`), then the hour as an integer.  Only the fact that
sorting permutes the list is used in the proofs. -/
def avgOrder (a b : HourlyAverage) : Prop :=
  a.date < b.date ∨ (a.date = b.date ∧
    ((jsParseIntOpt a.hour).getD 0 ≤ (jsParseIntOpt b.hour).getD 0))

instance : DecidableRel avgOrder := fun a b => by
  unfold avgOrder
  infer_instance

/-- The function `processAirQualityData` (lines 321-373): group by station,
accumulate per-key sums and counts skipping null values, then map to
rounded averages and sort by date and hour. -/
def processAirQualityData (data : List Obs) : ProcessResult :=
  if data.length = 0 then { stations := [], hourlyAverages := [] }
  else
    let stationData := data.foldl addToStationGroup []
    let hourly := data.foldl addHourly []
    { stations := stationData,
      hourlyAverages := List.insertionSort avgOrder (hourly.map mkAverage) }

/-- The non-missing values among `data` carried by observations at the exact
date/hour pair: the reference list for the hourly-average claims. -/
def nonMissingAt (data : List Obs) (d h : String) : List ℚ :=
  data.filterMap (fun o => if o.date = d ∧ o.hour = h then o.value else none)

/-- A JavaScript number as seen by `getAirQualityCategory`: `NaN`, the two
infinities, or a finite value. -/
inductive JsNum where
  | nan
  | posInf
  | negInf
  | fin (q : ℚ)
deriving DecidableEq, Repr

/-- The comparison `a <= b` on JavaScript numbers: false whenever `NaN` is
involved, and the infinities compare as extremes. -/
def jsLe : JsNum → JsNum → Bool
  | JsNum.nan, _ => false
  | _, JsNum.nan => false
  | JsNum.negInf, _ => true
  | _, JsNum.posInf => true
  | JsNum.posInf, _ => false
  | _, JsNum.negInf => false
  | JsNum.fin a, JsNum.fin b => decide (a ≤ b)

/-- Strict version of `jsLe`, used to state that tier bounds ascend. -/
def jsLt : JsNum → JsNum → Bool
  | JsNum.nan, _ => false
  | _, JsNum.nan => false
  | JsNum.negInf, JsNum.negInf => false
  | JsNum.negInf, _ => true
  | JsNum.posInf, _ => false
  | _, JsNum.posInf => true
  | JsNum.fin _, JsNum.negInf => false
  | JsNum.fin a, JsNum.fin b => decide (a < b)

/-- One breakpoint tier `{ max, category, color }`. -/
structure Tier where
  max : JsNum
  category : String
  color : String
deriving DecidableEq, Repr

/-- The `o3` table of lines 379-386. -/
def o3Tiers : List Tier :=
  [⟨JsNum.fin 70, "Good", "#00e400"⟩,
   ⟨JsNum.fin 95, "Moderate", "#ffff00"⟩,
   ⟨JsNum.fin 154, "Unhealthy for Sensitive Groups", "#ff7e00"⟩,
   ⟨JsNum.fin 204, "Unhealthy", "#ff0000"⟩,
   ⟨JsNum.fin 404, "Very Unhealthy", "#99004c"⟩,
   ⟨JsNum.posInf, "Hazardous", "#7e0023"⟩]

/-- The `pm10` table of lines 387-394. -/
def pm10Tiers : List Tier :=
  [⟨JsNum.fin 54, "Good", "#00e400"⟩,
   ⟨JsNum.fin 154, "Moderate", "#ffff00"⟩,
   ⟨JsNum.fin 254, "Unhealthy for Sensitive Groups", "#ff7e00"⟩,
   ⟨JsNum.fin 354, "Unhealthy", "#ff0000"⟩,
   ⟨JsNum.fin 424, "Very Unhealthy", "#99004c"⟩,
   ⟨JsNum.posInf, "Hazardous", "#7e0023"⟩]

/-- The `pm25` table of lines 395-402 (`35.4` is written `354/10`, and so
on, because decimal literals on `ℚ` do not evaluate inside the kernel). -/
def pm25Tiers : List Tier :=
  [⟨JsNum.fin 12, "Good", "#00e400"⟩,
   ⟨JsNum.fin (Rat.divInt 354 10), "Moderate", "#ffff00"⟩,
   ⟨JsNum.fin (Rat.divInt 554 10), "Unhealthy for Sensitive Groups", "#ff7e00"⟩,
   ⟨JsNum.fin (Rat.divInt 1504 10), "Unhealthy", "#ff0000"⟩,
   ⟨JsNum.fin (Rat.divInt 2504 10), "Very Unhealthy", "#99004c"⟩,
   ⟨JsNum.posInf, "Hazardous", "#7e0023"⟩]

/-- The `nox` table of lines 403-410. -/
def noxTiers : List Tier :=
  [⟨JsNum.fin 53, "Good", "#00e400"⟩,
   ⟨JsNum.fin 100, "Moderate", "#ffff00"⟩,
   ⟨JsNum.fin 360, "Unhealthy for Sensitive Groups", "#ff7e00"⟩,
   ⟨JsNum.fin 649, "Unhealthy", "#ff0000"⟩,
   ⟨JsNum.fin 1249, "Very Unhealthy", "#99004c"⟩,
   ⟨JsNum.posInf, "Hazardous", "#7e0023"⟩]

/-- The `co` table of lines 411-418. -/
def coTiers : List Tier :=
  [⟨JsNum.fin (Rat.divInt 44 10), "Good", "#00e400"⟩,
   ⟨JsNum.fin (Rat.divInt 94 10), "Moderate", "#ffff00"⟩,
   ⟨JsNum.fin (Rat.divInt 124 10), "Unhealthy for Sensitive Groups", "#ff7e00"⟩,
   ⟨JsNum.fin (Rat.divInt 154 10), "Unhealthy", "#ff0000"⟩,
   ⟨JsNum.fin (Rat.divInt 304 10), "Very Unhealthy", "#99004c"⟩,
   ⟨JsNum.posInf, "Hazardous", "#7e0023"⟩]

/-- The `so2` table of lines 419-426. -/
def so2Tiers : List Tier :=
  [⟨JsNum.fin 35, "Good", "#00e400"⟩,
   ⟨JsNum.fin 75, "Moderate", "#ffff00"⟩,
   ⟨JsNum.fin 185, "Unhealthy for Sensitive Groups", "#ff7e00"⟩,
   ⟨JsNum.fin 304, "Unhealthy", "#ff0000"⟩,
   ⟨JsNum.fin 604, "Very Unhealthy", "#99004c"⟩,
   ⟨JsNum.posInf, "Hazardous", "#7e0023"⟩]

/-- The lookup `categories[parameter] || categories.o3` of line 430. -/
def tableFor (parameter : String) : List Tier :=
  match parameter with
  | "o3" => o3Tiers
  | "pm10" => pm10Tiers
  | "pm25" => pm25Tiers
  | "nox" => noxTiers
  | "co" => coTiers
  | "so2" => so2Tiers
  | _ => o3Tiers

/-- Category/color pair returned by `getAirQualityCategory`. -/
structure CatResult where
  category : String
  color : String
deriving DecidableEq, Repr

/-- The scan loop of lines 433-440: the first tier whose bound the value
does not exceed. -/
def findCategory : List Tier → JsNum → Option CatResult
  | [], _ => none
  | t :: rest, v =>
    if jsLe v t.max then some { category := t.category, color := t.color }
    else findCategory rest v

/-- The function `getAirQualityCategory` (lines 376-444): scan the table of
the parameter and fall back to Unknown. -/
def getAirQualityCategory (parameter : String) (value : JsNum) : CatResult :=
  match findCategory (tableFor parameter) value with
  | some r => r
  | none => { category := "Unknown", color := "#808080" }

/-- First tier of a table whose upper bound is at least the (finite) value:
the specification-side reading of claim C4. -/
def firstTierGE (tiers : List Tier) (q : ℚ) : Option Tier :=
  tiers.find? (fun t => jsLe (JsNum.fin q) t.max)

/-- Header cells of the table the function selects, or the empty list when
extraction stops before reaching a header: the reference point for the
claims about a missing Fecha column. -/
def selectedHeaderCells (tables : List (List (List String))) (parameter : String) :
    List String :=
  match tables with
  | [] => []
  | t0 :: rest =>
    let dataTable := selectDataTable t0 rest
    if dataTable.length < 2 then []
    else (resolvedHeaderCells dataTable parameter).getD []

/-- The non-missing values among `data` carried by observations whose
space-joined key is `k`. -/
def keyVals (data : List Obs) (k : String) : List ℚ :=
  data.filterMap (fun o => if hourlyKey o = k then o.value else none)

/-- Replay of the sum/count updates over a list of contributing values,
used to characterize the hourly fold. -/
def combineAcc : Option (ℚ × Nat) → List ℚ → Option (ℚ × Nat)
  | g, [] => g
  | none, v :: vs => combineAcc (some (v, 1)) vs
  | some (s, c), v :: vs => combineAcc (some (ratAdd s v, c + 1)) vs

/-- Replay of the station-group updates over a filtered list, used to
characterize the grouping fold. -/
def combineGroup (g : Option (List Obs)) (l : List Obs) : Option (List Obs) :=
  match g, l with
  | none, [] => none
  | none, l => some l
  | some g0, l => some (g0 ++ l)

/-- A markup string of 100 characters, long enough to pass the length
guard, used by the concrete instances. -/
def html100 : String := String.mk (List.replicate 100 'h')

/-- A fixed wall clock (June 15 2025, 12:00) for the concrete instances. -/
def now0 : Now := { year := 2025, month := 6, day := 15, hour := 12 }

/-- Concrete observation list for the aggregation instances: two stations
reporting at the same timestamp and one missing-data report. -/
def dataW : List Obs :=
  [{ date := "2025-03-01", hour := "08", value := some 10, rawValue := "10",
     station := "A", parameter := "o3" },
   { date := "2025-03-01", hour := "08", value := some 20, rawValue := "20",
     station := "B", parameter := "o3" },
   { date := "2025-03-01", hour := "08", value := none, rawValue := "NR",
     station := "C", parameter := "o3" }]

/-- Single observation whose date contains a space, the input refuting the
exact-pair keying of the hourly averages. -/
def dataSpace : List Obs :=
  [{ date := "a b", hour := "c", value := some 10, rawValue := "10",
     station := "S", parameter := "o3" }]

/-- The upper bounds of consecutive tiers are strictly ascending. -/
def ascendingBounds : List Tier → Bool
  | [] => true
  | [_] => true
  | a :: b :: rest => jsLt a.max b.max && ascendingBounds (b :: rest)

theorem ratAdd_eq (a b : ℚ) : ratAdd a b = a + b := by
  rw [ratAdd, Rat.add_def', Rat.divInt_eq_div, Rat.mkRat_eq_div]
  push_cast
  ring_nf

theorem ratDivNat_eq (s : ℚ) (c : Nat) : ratDivNat s c = s / c := by
  rw [ratDivNat, Rat.divInt_eq_div]
  push_cast
  rw [← div_div, Rat.num_div_den]

theorem tableFor_cases (p : String) :
    tableFor p = o3Tiers ∨ tableFor p = pm10Tiers ∨ tableFor p = pm25Tiers ∨
    tableFor p = noxTiers ∨ tableFor p = coTiers ∨ tableFor p = so2Tiers := by
  unfold tableFor
  split <;> simp

/-- C1: the specification requires `parseAirQualityHtml` never to raise, but
the function as written throws a `ReferenceError` on every input, because
the debug block of lines 60-66 reads `tables.length` while the only
declaration of `tables` is the `const` inside the later `try` block. -/
theorem c1_parse_always_throws (html : String) (tables : List (List (List String)))
    (parameter year month : String) (specificDay : Option String)
    (specificHour : Option Nat) (specificStation : Option String) (now : Now) :
    parseAirQualityHtml html tables parameter year month specificDay specificHour
      specificStation now = Except.error (JsError.referenceError "tables") := rfl

/-- C3 fails as stated: at positive infinity the classifier returns the
Hazardous tier (whose bound is `Infinity` and therefore satisfies
`value <= max`), not the Unknown fallback, and at negative infinity it
returns the first (Good) tier. -/
theorem c3_counterexample :
    getAirQualityCategory "o3" JsNum.posInf ≠
      { category := "Unknown", color := "#808080" } ∧
    getAirQualityCategory "o3" JsNum.posInf =
      { category := "Hazardous", color := "#7e0023" } ∧
    getAirQualityCategory "o3" JsNum.negInf ≠
      { category := "Unknown", color := "#808080" } ∧
    getAirQualityCategory "o3" JsNum.negInf =
      { category := "Good", color := "#00e400" } := by
  decide

/-- C3 (amended): among the non-finite inputs only `NaN` produces the
fallback `{Unknown, #808080}` (every comparison with `NaN` is false);
positive infinity lands in the final Hazardous tier and negative infinity
in the first Good tier, for every parameter string. -/
theorem c3_nonfinite_values (parameter : String) :
    getAirQualityCategory parameter JsNum.nan =
      { category := "Unknown", color := "#808080" } ∧
    getAirQualityCategory parameter JsNum.posInf =
      { category := "Hazardous", color := "#7e0023" } ∧
    getAirQualityCategory parameter JsNum.negInf =
      { category := "Good", color := "#00e400" } := by
  rcases tableFor_cases parameter with h | h | h | h | h | h <;>
    simp only [getAirQualityCategory, h] <;> decide

/-- C9: markup shorter than 100 characters is rejected by the guard of
lines 68-72 before any table is inspected, whatever tables the document
contains. -/
theorem c9_short_html_returns_empty (html : String)
    (tables : List (List (List String))) (parameter year month : String)
    (specificDay : Option String) (specificHour : Option Nat)
    (specificStation : Option String) (now : Now) (hlen : html.length < 100) :
    parseAirQualityHtmlBody html tables parameter year month specificDay
      specificHour specificStation now = [] := by
  unfold parseAirQualityHtmlBody
  simp [hlen]

/-- Witness for C9 at a 5-character markup string containing a complete,
well-formed table. -/
theorem c9_witness :
    ("short" : String).length < 100 ∧
    parseAirQualityHtmlBody "short"
      [[["x"], ["Fecha", "Hora", "AAA"], ["01/02/2025", "1", "42"]]]
      "o3" "2024" "03" none none none now0 = [] :=
  ⟨by decide,
   c9_short_html_returns_empty "short"
     [[["x"], ["Fecha", "Hora", "AAA"], ["01/02/2025", "1", "42"]]]
     "o3" "2024" "03" none none none now0 (by decide)⟩

/-- C2 fails as stated for the empty-string token: the guard
`if (valueText)` on line 272 treats the empty trimmed cell text as falsy,
so an empty cell of a resolved station column emits no observation at all,
although the recognized-token list of line 274 (and the claim) includes the
empty string.  Here the selected table has one data row with a valid date
and hour and an empty cell under station AAA, and the output is empty
instead of one null-valued observation. -/
theorem c2_counterexample :
    parseAirQualityHtmlBody html100
      [[["x"], ["Fecha", "Hora", "AAA"], ["01/02/2025", "1", ""]]]
      "o3" "2024" "03" none none none now0 = [] := by
  decide

/-- C2 (amended): for a cell of a resolved station column, in a data row
that passes the day, hour and future filters, whose trimmed text is
nonempty and case-insensitively equals one of the recognized missing-data
tokens, exactly one observation is emitted, with the missing-data value
`none` and with `rawValue` the uppercased trimmed cell text; empty cells
emit nothing. -/
theorem c2_missing_token_emits_null
    (parameter year month rowDay formattedHour stationName text : String)
    (h1 : jsTrim text ≠ "")
    (h2 : missingTokens.contains (jsToLower (jsTrim text)) = true) :
    processStationCell parameter year month rowDay formattedHour stationName text =
      [{ date := year ++ "-" ++ month ++ "-" ++ rowDay, hour := formattedHour,
         value := none, rawValue := jsToUpper (jsTrim text),
         station := stationName, parameter := parameter }] := by
  have h2m : jsToLower (jsTrim text) ∈ missingTokens := by simpa using h2
  unfold processStationCell
  simp [h1, h2m]

/-- Witness for C2 at the cell text `" nr "`. -/
theorem c2_witness :
    jsTrim " nr " ≠ "" ∧
    missingTokens.contains (jsToLower (jsTrim " nr ")) = true ∧
    processStationCell "o3" "2024" "03" "01" "01" "AAA" " nr " =
      [{ date := "2024-03-01", hour := "01", value := none, rawValue := "NR",
         station := "AAA", parameter := "o3" }] := by
  refine ⟨by decide, by decide, ?_⟩
  have h := c2_missing_token_emits_null "o3" "2024" "03" "01" "01" "AAA" " nr "
    (by decide) (by decide)
  exact h.trans (by decide)

theorem findCategory_eq_firstTierGE (tiers : List Tier) (q : ℚ) :
    findCategory tiers (JsNum.fin q) =
      (firstTierGE tiers q).map (fun t => { category := t.category, color := t.color }) := by
  induction tiers with
  | nil => rfl
  | cons t rest ih =>
    simp only [findCategory, firstTierGE, List.find?_cons]
    by_cases h : jsLe (JsNum.fin q) t.max
    · simp [h]
    · simp only [h, if_false, Bool.false_eq_true, ite_false]
      simpa [firstTierGE] using ih

/-- C4: for every finite value the classifier returns the category and
color of the first tier (in the ascending-bound scan order of the table)
whose upper bound is at least the value; such a tier always exists because
the final bound is infinite; the bounds of every table are strictly
ascending; the boundary is inclusive (`o3` at 70 is Good, at 70.1 — here
`701/10` — Moderate); and a parameter without a breakpoint table falls back
to the `o3` table. -/
theorem c4_first_matching_tier :
    (∀ (parameter : String) (q : ℚ), ∃ t : Tier,
        firstTierGE (tableFor parameter) q = some t ∧
        getAirQualityCategory parameter (JsNum.fin q) =
          { category := t.category, color := t.color }) ∧
    getAirQualityCategory "o3" (JsNum.fin 70) =
      { category := "Good", color := "#00e400" } ∧
    getAirQualityCategory "o3" (JsNum.fin (Rat.divInt 701 10)) =
      { category := "Moderate", color := "#ffff00" } ∧
    (∀ parameter : String,
        parameter ∉ (["o3", "pm10", "pm25", "nox", "co", "so2"] : List String) →
        tableFor parameter = o3Tiers) ∧
    (∀ parameter : String, ascendingBounds (tableFor parameter) = true) := by
  refine ⟨?_, by decide, by decide, ?_, ?_⟩
  · intro p q
    have hmem : (⟨JsNum.posInf, "Hazardous", "#7e0023"⟩ : Tier) ∈ tableFor p := by
      rcases tableFor_cases p with h | h | h | h | h | h <;> rw [h] <;> decide
    have hsome : (firstTierGE (tableFor p) q).isSome := by
      unfold firstTierGE
      exact List.find?_isSome.mpr ⟨_, hmem, rfl⟩
    obtain ⟨t, ht⟩ := Option.isSome_iff_exists.mp hsome
    exact ⟨t, ht, by simp [getAirQualityCategory, findCategory_eq_firstTierGE, ht]⟩
  · intro p hp
    unfold tableFor
    split <;> simp_all
  · intro p
    rcases tableFor_cases p with h | h | h | h | h | h <;> rw [h] <;> decide

/-- Witness for C4: the first matching tier exists at `o3`/100, and the
unknown code `"unknownpollutant"` uses the `o3` table. -/
theorem c4_witness :
    (∃ t : Tier, firstTierGE (tableFor "o3") 100 = some t ∧
        getAirQualityCategory "o3" (JsNum.fin 100) =
          { category := t.category, color := t.color }) ∧
    tableFor "unknownpollutant" = o3Tiers :=
  ⟨c4_first_matching_tier.1 "o3" 100,
   c4_first_matching_tier.2.2.2.1 "unknownpollutant" (by decide)⟩

theorem resolveRowDay_none (cells : List String) :
    resolveRowDay none none none cells = none := rfl

theorem flatMap_eq_nil_of_forall {α β : Type} (l : List α) (f : α → List β)
    (h : ∀ a, f a = []) : l.flatMap f = [] := by
  induction l with
  | nil => rfl
  | cons a rest ih => simp [List.flatMap_cons, h a, ih]

theorem processDataRow_no_day (parameter year month : String)
    (specificHour : Option Nat) (horaIndex stationStartIndex : Nat)
    (stationIndices : List (String × Nat)) (now : Now) (cells : List String) :
    processDataRow parameter year month none none specificHour none
      horaIndex stationStartIndex stationIndices now cells = [] := by
  unfold processDataRow
  simp [resolveRowDay_none]

/-- C5 fails as stated: the selected table has no Fecha column (its header
is `["Hora", "AAA"]`), no `specificDay` is supplied, and the single valid
data row (hour 1, value 42) is dropped rather than emitted with a day taken
from document text or the default "01" — there is no such fallback in the
function, rows without a resolvable day are skipped. -/
theorem c5_counterexample :
    parseAirQualityHtmlBody html100 [[["x"], ["Hora", "AAA"], ["1", "42"]]]
      "o3" "2025" "03" none none none now0 = [] := by
  decide

/-- C5 (amended): when the selected table has no resolvable Fecha column
and no `specificDay` is supplied, no data row can resolve a day, so every
row is skipped and extraction returns the empty sequence; there is no
document-text search and no default day "01". -/
theorem c5_no_fecha_no_day_drops_rows (html : String)
    (tables : List (List (List String))) (parameter year month : String)
    (specificHour : Option Nat) (specificStation : Option String) (now : Now)
    (hf : findHeaderIdx "fecha"
        ((selectedHeaderCells tables parameter).map jsTrim) = none) :
    parseAirQualityHtmlBody html tables parameter year month none specificHour
      specificStation now = [] := by
  unfold parseAirQualityHtmlBody
  by_cases hlen : html.length < 100
  · simp [hlen]
  · simp only [hlen, if_false]
    match htab : tables with
    | [] => rfl
    | t0 :: rest =>
      by_cases hdt : (selectDataTable t0 rest).length < 2
      · simp [hdt]
      · simp only [hdt, if_false]
        match hh : resolvedHeaderCells (selectDataTable t0 rest) parameter with
        | none => rfl
        | some headerCells =>
          have hsel : selectedHeaderCells (t0 :: rest) parameter = headerCells := by
            unfold selectedHeaderCells
            simp [hdt, hh]
          rw [hsel] at hf
          unfold parseWithHeader
          match hhora : findHeaderIdx "hora" (headerCells.map jsTrim) with
          | none => simp [hhora]
          | some horaIndex =>
            simp only [hhora, hf, optTruthy]
            apply flatMap_eq_nil_of_forall
            intro cells
            exact processDataRow_no_day _ _ _ _ _ _ _ _ cells

/-- Witness for C5: a concrete no-Fecha table for which the hypothesis of
the amended theorem is checkable and extraction is empty. -/
theorem c5_witness :
    findHeaderIdx "fecha"
      ((selectedHeaderCells [[["x"], ["Hora", "AAA"], ["1", "42"]]] "o3").map jsTrim)
        = none ∧
    parseAirQualityHtmlBody html100 [[["x"], ["Hora", "AAA"], ["1", "42"]]]
      "o3" "2026" "01" none none none now0 = [] :=
  ⟨by decide,
   c5_no_fecha_no_day_drops_rows html100 [[["x"], ["Hora", "AAA"], ["1", "42"]]]
     "o3" "2026" "01" none none now0 (by decide)⟩

theorem jsParseIntOpt_natPad2 : ∀ x : Nat, x < 32 →
    jsParseIntOpt (natPad2 x) = some (x : Int) := by decide

theorem jsIntGT_self (a : Option Int) : jsIntGT a a = false := by
  cases a <;> simp [jsIntGT]

/-- C8: when the request year and month are the current wall-clock year and
(zero-padded) month, a row whose resolved day/hour pair is strictly after
the current day and hour contributes no observations (the future filter
skips it, or an earlier filter already dropped it), while the filter itself
evaluates to false on a row at exactly the current day and hour. -/
theorem c8_future_hour_filter (now : Now) (year month parameter : String)
    (day specificDay : Option String) (specificHour : Option Nat)
    (fechaIndex : Option Nat) (horaIndex stationStartIndex : Nat)
    (stationIndices : List (String × Nat)) (cells : List String) (d h : Nat)
    (hy : jsParseIntOpt year = some now.year) (hm : month = natPad2 now.month)
    (hd31 : d ≤ 31) (hnd31 : now.day ≤ 31) :
    ((now.day < d ∨ (d = now.day ∧ now.hour < h)) →
      resolveRowDay day specificDay fechaIndex cells = some (natPad2 d) →
      extractRowHour horaIndex cells = some h →
      processDataRow parameter year month day specificDay specificHour fechaIndex
        horaIndex stationStartIndex stationIndices now cells = []) ∧
    futureSkip year month (natPad2 now.day) now.hour now = false := by
  constructor
  · intro hafter hrd hh
    have hskip : futureSkip year month (natPad2 d) h now = true := by
      rcases hafter with hlt | ⟨heq, hlt⟩
      · have h1 := jsParseIntOpt_natPad2 d (by omega)
        have h2 := jsParseIntOpt_natPad2 now.day (by omega)
        simp [futureSkip, jsIntEq, jsIntGT, hy, hm, h1, h2]
        omega
      · subst heq
        simp [futureSkip, jsIntEq, jsIntGT_self, hy, hm, hlt]
    unfold processDataRow
    by_cases hcl : cells.length ≤ stationStartIndex
    · simp [hcl]
    · simp only [hcl, if_false]
      rw [hrd, hh]
      by_cases h23 : 23 < h
      · simp [h23]
      · cases specificHour with
        | none => simp [h23, hskip]
        | some sh =>
          by_cases hsh : sh ≠ h
          · simp [h23, hsh]
          · simp [h23, hsh, hskip]
  · simp [futureSkip, jsIntEq, jsIntGT_self, hy, hm]

/-- Witness for C8: on June 15 2025 at 12:00, a row dated June 16 at hour 0
is dropped, and the filter is false at exactly June 15, hour 12. -/
theorem c8_witness :
    processDataRow "o3" "2025" "06" none none none (some 0) 1 2
      [("AAA", 2)] now0 ["16/06/2025", "0", "5"] = [] ∧
    futureSkip "2025" "06" (natPad2 now0.day) now0.hour now0 = false := by
  have h := c8_future_hour_filter now0 "2025" "06" "o3" none none none (some 0) 1 2
    [("AAA", 2)] ["16/06/2025", "0", "5"] 16 0 (by decide) (by decide)
    (by decide) (by decide)
  exact ⟨h.1 (Or.inl (by decide)) (by decide) (by decide), h.2⟩

theorem assocFind_addToStationGroup (m : List (String × List Obs)) (o : Obs)
    (k : String) :
    assocFind (addToStationGroup m o) k =
      if o.station = k then
        match assocFind m k with
        | none => some [o]
        | some l => some (l ++ [o])
      else assocFind m k := by
  induction m with
  | nil =>
    by_cases h : o.station = k <;> simp [addToStationGroup, assocFind, h]
  | cons e rest ih =>
    obtain ⟨k1, l1⟩ := e
    by_cases h1 : k1 = o.station
    · subst h1
      by_cases h2 : o.station = k
      · simp [addToStationGroup, assocFind, h2]
      · simp [addToStationGroup, assocFind, h2]
    · by_cases h2 : k1 = k
      · subst h2
        have hok : ¬ o.station = k1 := fun hc => h1 hc.symm
        simp [addToStationGroup, assocFind, h1, hok]
      · simp [addToStationGroup, assocFind, h1, h2, ih]

theorem foldl_addToStationGroup (data : List Obs) :
    ∀ (m : List (String × List Obs)) (k : String),
      assocFind (data.foldl addToStationGroup m) k =
        combineGroup (assocFind m k) (data.filter (fun o => o.station = k)) := by
  induction data with
  | nil =>
    intro m k
    cases h : assocFind m k <;> simp [combineGroup, h]
  | cons o rest ih =>
    intro m k
    rw [List.foldl_cons, ih, assocFind_addToStationGroup]
    by_cases h : o.station = k
    · simp only [h, if_true, List.filter_cons, decide_eq_true_eq]
      cases hm : assocFind m k <;> simp [combineGroup, h]
    · simp [h, List.filter_cons]

theorem length_addToStationGroup (m : List (String × List Obs)) (o : Obs) :
    ((addToStationGroup m o).map (fun g => g.2.length)).sum =
      (m.map (fun g => g.2.length)).sum + 1 := by
  induction m with
  | nil => simp [addToStationGroup]
  | cons e rest ih =>
    obtain ⟨k1, l1⟩ := e
    by_cases h : k1 = o.station <;> simp [addToStationGroup, h, ih] <;> omega

theorem length_foldl_addToStationGroup (data : List Obs) :
    ∀ m : List (String × List Obs),
      ((data.foldl addToStationGroup m).map (fun g => g.2.length)).sum =
        (m.map (fun g => g.2.length)).sum + data.length := by
  induction data with
  | nil => intro m; simp
  | cons o rest ih =>
    intro m
    rw [List.foldl_cons, ih, length_addToStationGroup]
    simp
    omega

/-- C10: the stations object is an exact, order-preserving partition of the
input: the group under key `s` is precisely the subsequence of input
observations whose `station` is `s` (missing-valued observations included),
a key is present exactly when that subsequence is nonempty, and the group
sizes add up to the input length. -/
theorem c10_station_partition (data : List Obs) :
    (∀ s : String,
        assocFind (processAirQualityData data).stations s =
          if data.filter (fun o => o.station = s) = [] then none
          else some (data.filter (fun o => o.station = s))) ∧
    ((processAirQualityData data).stations.map (fun g => g.2.length)).sum
      = data.length := by
  unfold processAirQualityData
  by_cases hlen : data.length = 0
  · have hnil : data = [] := List.length_eq_zero.mp hlen
    subst hnil
    simp [assocFind]
  · simp only [hlen, if_false]
    constructor
    · intro s
      rw [foldl_addToStationGroup]
      simp only [assocFind]
      cases hfil : data.filter (fun o => o.station = s) with
      | nil => simp [combineGroup]
      | cons a l => simp [combineGroup]
    · rw [length_foldl_addToStationGroup]
      simp

theorem assocFind_hourlyUpdate (m : List (String × ℚ × Nat)) (k : String) (v : ℚ)
    (k2 : String) :
    assocFind (hourlyUpdate m k v) k2 =
      if k = k2 then
        match assocFind m k2 with
        | none => some (v, 1)
        | some (s, c) => some (ratAdd s v, c + 1)
      else assocFind m k2 := by
  induction m with
  | nil => by_cases h : k = k2 <;> simp [hourlyUpdate, assocFind, h]
  | cons e rest ih =>
    obtain ⟨k1, s1, c1⟩ := e
    by_cases h1 : k1 = k
    · by_cases h2 : k = k2
      · have h12 : k1 = k2 := h1.trans h2
        simp [hourlyUpdate, assocFind, h1, h2, h12]
      · have h12 : ¬ k1 = k2 := by rw [h1]; exact h2
        simp [hourlyUpdate, assocFind, h1, h2, h12]
    · by_cases h2 : k1 = k2
      · have hk : ¬ k = k2 := fun hc => h1 (h2.trans hc.symm)
        have hk2 : ¬ k2 = k := fun hc => hk hc.symm
        simp [hourlyUpdate, assocFind, h1, h2, hk, hk2]
      · simp [hourlyUpdate, assocFind, h1, h2, ih]

theorem foldl_addHourly (data : List Obs) :
    ∀ (m : List (String × ℚ × Nat)) (k : String),
      assocFind (data.foldl addHourly m) k =
        combineAcc (assocFind m k) (keyVals data k) := by
  induction data with
  | nil =>
    intro m k
    simp [keyVals, combineAcc]
  | cons o rest ih =>
    intro m k
    rw [List.foldl_cons, ih]
    cases hv : o.value with
    | none =>
      have h1 : addHourly m o = m := by simp [addHourly, hv]
      have h2 : keyVals (o :: rest) k = keyVals rest k := by
        simp [keyVals, List.filterMap_cons, hv]
      rw [h1, h2]
    | some v =>
      by_cases hk : hourlyKey o = k
      · have h1 : addHourly m o = hourlyUpdate m k v := by
          simp [addHourly, hv, hk]
        have h2 : keyVals (o :: rest) k = v :: keyVals rest k := by
          simp [keyVals, List.filterMap_cons, hv, hk]
        rw [h1, h2, assocFind_hourlyUpdate]
        simp only [if_pos rfl]
        cases hm : assocFind m k with
        | none => rfl
        | some p =>
          obtain ⟨s, c⟩ := p
          rfl
      · have h1 : assocFind (addHourly m o) k = assocFind m k := by
          simp only [addHourly, hv]
          rw [assocFind_hourlyUpdate]
          simp [hk]
        have h2 : keyVals (o :: rest) k = keyVals rest k := by
          simp [keyVals, List.filterMap_cons, hv, hk]
        rw [h1, h2]

theorem combineAcc_some (vs : List ℚ) :
    ∀ (s : ℚ) (c : Nat),
      combineAcc (some (s, c)) vs = some (s + vs.sum, c + vs.length) := by
  induction vs with
  | nil => intro s c; simp [combineAcc]
  | cons v rest ih =>
    intro s c
    have h1 : combineAcc (some (s, c)) (v :: rest) =
        combineAcc (some (ratAdd s v, c + 1)) rest := rfl
    rw [h1, ih, ratAdd_eq]
    simp [List.sum_cons]
    constructor
    · ring
    · omega

theorem combineAcc_none_characterization (vs : List ℚ) :
    combineAcc none vs =
      match vs with
      | [] => none
      | v :: rest => some (v + rest.sum, 1 + rest.length) := by
  cases vs with
  | nil => rfl
  | cons v rest =>
    have h1 : combineAcc (none : Option (ℚ × Nat)) (v :: rest) =
        combineAcc (some (v, 1)) rest := rfl
    rw [h1, combineAcc_some]

theorem keys_hourlyUpdate (m : List (String × ℚ × Nat)) (k : String) (v : ℚ) :
    (hourlyUpdate m k v).map Prod.fst =
      if k ∈ m.map Prod.fst then m.map Prod.fst else m.map Prod.fst ++ [k] := by
  induction m with
  | nil => simp [hourlyUpdate]
  | cons e rest ih =>
    obtain ⟨k1, v1⟩ := e
    by_cases h : k1 = k
    · simp [hourlyUpdate, h]
    · have hne : ¬ k = k1 := fun hc => h hc.symm
      by_cases h2 : k ∈ rest.map Prod.fst <;>
        simp [hourlyUpdate, h, hne, h2, ih]

theorem nodup_keys_hourlyUpdate (m : List (String × ℚ × Nat)) (k : String) (v : ℚ)
    (h : (m.map Prod.fst).Nodup) : ((hourlyUpdate m k v).map Prod.fst).Nodup := by
  rw [keys_hourlyUpdate]
  by_cases h2 : k ∈ m.map Prod.fst
  · simp [h2, h]
  · simp [h2, List.nodup_append, h]

theorem nodup_keys_foldl_addHourly (data : List Obs) :
    ∀ m : List (String × ℚ × Nat), (m.map Prod.fst).Nodup →
      (((data.foldl addHourly m)).map Prod.fst).Nodup := by
  induction data with
  | nil => intro m h; exact h
  | cons o rest ih =>
    intro m h
    rw [List.foldl_cons]
    apply ih
    cases hv : o.value with
    | none => simpa [addHourly, hv] using h
    | some v =>
      simp only [addHourly, hv]
      exact nodup_keys_hourlyUpdate _ _ _ h

theorem assocFind_of_mem {α : Type} (m : List (String × α)) (k : String) (x : α)
    (hnd : (m.map Prod.fst).Nodup) (hmem : (k, x) ∈ m) : assocFind m k = some x := by
  induction m with
  | nil => cases hmem
  | cons e rest ih =>
    obtain ⟨k1, v1⟩ := e
    rcases List.mem_cons.mp hmem with he | hrest
    · cases he
      simp [assocFind]
    · rw [List.map_cons] at hnd
      have hnd2 := List.nodup_cons.mp hnd
      have hk : ¬ k1 = k := by
        intro hc
        subst hc
        exact hnd2.1 (List.mem_map.mpr ⟨(k1, x), hrest, rfl⟩)
      simp only [assocFind, hk, if_false]
      exact ih hnd2.2 hrest

theorem str_data_append (a b : String) : (a ++ b).data = a.data ++ b.data := rfl

theorem str_ext (a b : String) (h : a.data = b.data) : a = b := by
  cases a
  cases b
  exact congrArg String.mk h

theorem splitOnSpace_no_space (l : List Char) (h : ' ' ∉ l) :
    splitOnSpace l = [l] := by
  induction l with
  | nil => rfl
  | cons c rest ih =>
    have hc : ¬ c = ' ' := fun hc => h (hc ▸ List.mem_cons_self c rest)
    have hr : ' ' ∉ rest := fun hm => h (List.mem_cons_of_mem c hm)
    simp [splitOnSpace, hc, ih hr]

theorem splitOnSpace_append (xs ys : List Char) (h : ' ' ∉ xs) :
    splitOnSpace (xs ++ ' ' :: ys) = xs :: splitOnSpace ys := by
  induction xs with
  | nil => simp [splitOnSpace]
  | cons c rest ih =>
    have hc : ¬ c = ' ' := fun hc => h (hc ▸ List.mem_cons_self c rest)
    have hr : ' ' ∉ rest := fun hm => h (List.mem_cons_of_mem c hm)
    simp only [List.cons_append, splitOnSpace, hc, if_false]
    have ih2 : splitOnSpace (rest.append (' ' :: ys)) = rest :: splitOnSpace ys := ih hr
    rw [ih2]

theorem jsSplitSpace_pair (a b : String) (ha : ' ' ∉ a.data) (hb : ' ' ∉ b.data) :
    jsSplitSpace (a ++ " " ++ b) = [a, b] := by
  unfold jsSplitSpace
  have hdata : (a ++ " " ++ b).data = a.data ++ ' ' :: b.data := by
    rw [str_data_append, str_data_append]
    simp
  rw [hdata, splitOnSpace_append _ _ ha, splitOnSpace_no_space _ hb]
  rfl

theorem append_space_inj (xs ys xs2 ys2 : List Char) (h1 : ' ' ∉ xs)
    (h2 : ' ' ∉ xs2) (heq : xs ++ ' ' :: ys = xs2 ++ ' ' :: ys2) :
    xs = xs2 ∧ ys = ys2 := by
  have hsplit := congrArg splitOnSpace heq
  rw [splitOnSpace_append _ _ h1, splitOnSpace_append _ _ h2] at hsplit
  have hx : xs = xs2 := (List.cons.injEq _ _ _ _ ▸ hsplit).1
  subst hx
  have := List.append_cancel_left heq
  exact ⟨rfl, by simpa using this⟩

theorem hourlyKey_inj (d h d2 h2 : String) (hd : ' ' ∉ d.data) (hd2 : ' ' ∉ d2.data)
    (heq : d ++ " " ++ h = d2 ++ " " ++ h2) : d = d2 ∧ h = h2 := by
  have hdata : d.data ++ ' ' :: h.data = d2.data ++ ' ' :: h2.data := by
    have hc := congrArg String.data heq
    rw [str_data_append, str_data_append, str_data_append, str_data_append] at hc
    simpa using hc
  obtain ⟨e1, e2⟩ := append_space_inj _ _ _ _ hd hd2 hdata
  exact ⟨str_ext _ _ e1, str_ext _ _ e2⟩

theorem keyVals_eq_nonMissingAt (data : List Obs) (d h : String)
    (hd : ' ' ∉ d.data) (hs : ∀ o ∈ data, ' ' ∉ o.date.data) :
    keyVals data (d ++ " " ++ h) = nonMissingAt data d h := by
  unfold keyVals nonMissingAt
  apply List.filterMap_congr
  intro o ho
  by_cases hcond : o.date = d ∧ o.hour = h
  · obtain ⟨e1, e2⟩ := hcond
    simp [hourlyKey, e1, e2]
  · have hne : ¬ hourlyKey o = d ++ " " ++ h := by
      intro hc
      obtain ⟨e1, e2⟩ := hourlyKey_inj o.date o.hour d h (hs o ho) hd hc
      exact hcond ⟨e1, e2⟩
    simp [hne, hcond]

/-- C6 fails as stated: the hourly accumulator keys on the space-joined
string `date + ' ' + hour`, not on the exact pair.  For the single
observation with date `"a b"`, hour `"c"` and value 10, the output contains
the entry with date `"a"` and hour `"b"` (the first two pieces of the split
key) although no observation at the pair ("a", "b") exists — a key whose
observations are (vacuously) all missing appears, with a value that is not
the mean of any observations at that key. -/
theorem c6_counterexample :
    (processAirQualityData dataSpace).hourlyAverages =
      [{ date := "a", hour := "b", value := 10, stationCount := 1 }] ∧
    nonMissingAt dataSpace "a" "b" = [] := by
  constructor
  · decide
  · decide

/-- C6 (amended): provided no observation's date or hour contains a space
character (true of all parser-produced observations), every emitted
HourlyAverage belongs to a (date, hour) pair carrying at least one
non-missing observation — missing-valued observations contribute to neither
the sum nor the count, and a pair whose observations are all missing never
appears — and its value is the arithmetic mean of the non-missing values at
that pair rounded to one decimal, with `stationCount` their number. -/
theorem c6_hourly_average_mean (data : List Obs)
    (hsp : ∀ o ∈ data, ' ' ∉ o.date.data ∧ ' ' ∉ o.hour.data) :
    ∀ e ∈ (processAirQualityData data).hourlyAverages,
      nonMissingAt data e.date e.hour ≠ [] ∧
      e.stationCount = (nonMissingAt data e.date e.hour).length ∧
      e.value = roundHalfAwayTenths ((nonMissingAt data e.date e.hour).sum /
        ((nonMissingAt data e.date e.hour).length : ℚ)) := by
  intro e he
  unfold processAirQualityData at he
  by_cases hlen : data.length = 0
  · simp [hlen] at he
  · simp only [hlen, if_false] at he
    rw [(List.perm_insertionSort avgOrder _).mem_iff] at he
    obtain ⟨entry, hentry, hmk⟩ := List.mem_map.mp he
    obtain ⟨k, s, c⟩ := entry
    have hnodup := nodup_keys_foldl_addHourly data [] (by simp)
    have hfind := assocFind_of_mem _ k (s, c) hnodup hentry
    rw [foldl_addHourly] at hfind
    have hnone : assocFind ([] : List (String × ℚ × Nat)) k = none := rfl
    rw [hnone, combineAcc_none_characterization] at hfind
    cases hkv : keyVals data k with
    | nil =>
      rw [hkv] at hfind
      cases hfind
    | cons v vs =>
      rw [hkv] at hfind
      have hsc : v + vs.sum = s ∧ 1 + vs.length = c := by
        have h1 := Option.some.inj hfind
        exact ⟨congrArg Prod.fst h1, congrArg Prod.snd h1⟩
      have hvmem : v ∈ keyVals data k := by
        rw [hkv]
        exact List.mem_cons_self v vs
      obtain ⟨o, ho, hfo⟩ := List.mem_filterMap.mp hvmem
      have hko : hourlyKey o = k ∧ o.value = some v := by
        by_cases hcase : hourlyKey o = k
        · refine ⟨hcase, ?_⟩
          simpa [hcase] using hfo
        · simp [hcase] at hfo
      obtain ⟨hk, hov⟩ := hko
      have hod := (hsp o ho).1
      have hoh := (hsp o ho).2
      have hkey : k = o.date ++ " " ++ o.hour := by
        rw [← hk]
        rfl
      subst hmk
      have hsplit : jsSplitSpace k = [o.date, o.hour] := by
        rw [hkey]
        exact jsSplitSpace_pair _ _ hod hoh
      have hdate : (mkAverage (k, s, c)).date = o.date := by
        simp [mkAverage, hsplit]
      have hhour : (mkAverage (k, s, c)).hour = o.hour := by
        simp [mkAverage, hsplit]
      have hnm : nonMissingAt data o.date o.hour = v :: vs := by
        rw [← hkv, ← keyVals_eq_nonMissingAt data o.date o.hour hod
          (fun o2 ho2 => (hsp o2 ho2).1), ← hkey]
      rw [hdate, hhour, hnm]
      refine ⟨by simp, ?_, ?_⟩
      · simp only [mkAverage, List.length_cons]
        omega
      · simp only [mkAverage]
        rw [ratDivNat_eq]
        have hs2 : s = (v :: vs).sum := by
          rw [List.sum_cons, hsc.1]
        have hc2 : c = (v :: vs).length := by
          rw [List.length_cons, ← hsc.2]
          omega
        rw [hs2, hc2]

/-- Witness for C6: two stations reporting 10 and 20 at the same timestamp
plus one missing-data report; the emitted average is 15.0 over 2 stations,
the missing report contributing to neither. -/
theorem c6_witness :
    nonMissingAt dataW "2025-03-01" "08" ≠ [] ∧
    (2 : Nat) = (nonMissingAt dataW "2025-03-01" "08").length ∧
    (15 : ℚ) = roundHalfAwayTenths ((nonMissingAt dataW "2025-03-01" "08").sum /
      ((nonMissingAt dataW "2025-03-01" "08").length : ℚ)) := by
  have h := c6_hourly_average_mean dataW (by decide)
    { date := "2025-03-01", hour := "08", value := 15, stationCount := 2 } (by decide)
  exact h

theorem takeWhile_all_digits (l : List Char) :
    (l.takeWhile Char.isDigit).all Char.isDigit = true := by
  rw [List.all_eq_true]
  intro c hc
  exact List.mem_takeWhile_imp hc

theorem tryDateMatchAt_digits (l : List Char) (m1 m2 m3 : String)
    (h : tryDateMatchAt l = some (m1, m2, m3)) :
    (m1.data ≠ [] ∧ m1.data.all Char.isDigit) ∧
    (m2.data ≠ [] ∧ m2.data.all Char.isDigit) ∧
    (m3.data ≠ [] ∧ m3.data.all Char.isDigit) := by
  unfold tryDateMatchAt at h
  by_cases h1 : (l.takeWhile Char.isDigit).isEmpty
  · simp [h1] at h
  · simp only [h1, if_false] at h
    rcases hd1 : l.dropWhile Char.isDigit with _ | ⟨c1, r1⟩ <;> rw [hd1] at h
    · cases h
    · by_cases hs1 : isDateSep c1
      · simp only [hs1, if_true] at h
        by_cases h2 : (r1.takeWhile Char.isDigit).isEmpty
        · simp [h2] at h
        · simp only [h2, if_false] at h
          rcases hd2 : r1.dropWhile Char.isDigit with _ | ⟨c2, r2⟩ <;> rw [hd2] at h
          · cases h
          · by_cases hs2 : isDateSep c2
            · simp only [hs2, if_true] at h
              by_cases h3 : (r2.takeWhile Char.isDigit).isEmpty
              · simp [h3] at h
              · simp only [h3, if_false] at h
                injection h with h4
                injection h4 with e1 h5
                injection h5 with e2 e3
                subst e1
                subst e2
                subst e3
                refine ⟨⟨?_, takeWhile_all_digits l⟩, ⟨?_, takeWhile_all_digits r1⟩,
                  ⟨?_, takeWhile_all_digits r2⟩⟩
                · exact fun hc => h1 (List.isEmpty_iff.mpr hc)
                · exact fun hc => h2 (List.isEmpty_iff.mpr hc)
                · exact fun hc => h3 (List.isEmpty_iff.mpr hc)
            · simp [hs2] at h
      · simp [hs1] at h

theorem findDateMatch_digits (l : List Char) (m1 m2 m3 : String)
    (h : findDateMatch l = some (m1, m2, m3)) :
    (m1.data ≠ [] ∧ m1.data.all Char.isDigit) ∧
    (m2.data ≠ [] ∧ m2.data.all Char.isDigit) ∧
    (m3.data ≠ [] ∧ m3.data.all Char.isDigit) := by
  induction l with
  | nil => cases h
  | cons c rest ih =>
    unfold findDateMatch at h
    cases ht : tryDateMatchAt (c :: rest) with
    | none =>
      rw [ht] at h
      exact ih h
    | some g =>
      rw [ht] at h
      have hg : g = (m1, m2, m3) := Option.some.inj h
      rw [hg] at ht
      exact tryDateMatchAt_digits _ _ _ _ ht

theorem str_ne_empty_of_data (s : String) (h : s.data ≠ []) : s ≠ "" :=
  fun hc => h (congrArg String.data hc)

theorem pad2_shape (s : String) (h1 : s.data ≠ []) (h2 : s.data.all Char.isDigit) :
    (pad2 s).data ≠ [] ∧ (pad2 s).data.all Char.isDigit ∧ 2 ≤ (pad2 s).length := by
  unfold pad2
  by_cases h : 2 ≤ s.length
  · rw [if_pos h]
    exact ⟨h1, h2, h⟩
  · rw [if_neg h]
    have hdata : (String.mk (List.replicate (2 - s.length) '0') ++ s).data
        = List.replicate (2 - s.length) '0' ++ s.data := rfl
    have hlen : s.length = s.data.length := rfl
    refine ⟨?_, ?_, ?_⟩
    · rw [hdata]
      intro hc
      exact h1 (List.append_eq_nil.mp hc).2
    · rw [hdata, List.all_append, Bool.and_eq_true]
      refine ⟨?_, h2⟩
      rw [List.all_eq_true]
      intro c hc
      rw [List.eq_of_mem_replicate hc]
      decide
    · have hl2 : (String.mk (List.replicate (2 - s.length) '0') ++ s).length
          = (List.replicate (2 - s.length) '0' ++ s.data).length := rfl
      rw [hl2, List.length_append, List.length_replicate]
      have hpos : 1 ≤ s.data.length := by
        cases hd : s.data with
        | nil => exact absurd hd h1
        | cons a t => simp
      rw [hlen] at h
      omega

theorem dayTail_shape (day specificDay : Option String) (rd : String)
    (hday : day = none ∨ ∃ sd, specificDay = some sd ∧ day = some (pad2 sd))
    (h : (if optTruthy day then day
          else if optTruthy specificDay then some (pad2 (specificDay.getD "")) else none)
        = some rd) :
    ∃ sd, specificDay = some sd ∧ rd = pad2 sd := by
  by_cases ht : optTruthy day = true
  · rw [if_pos ht] at h
    rcases hday with hnone | ⟨sd, hsd, hpad⟩
    · rw [hnone] at ht
      cases ht
    · rw [hpad] at h
      exact ⟨sd, hsd, (Option.some.inj h).symm⟩
  · rw [if_neg ht] at h
    by_cases hs : optTruthy specificDay = true
    · rw [if_pos hs] at h
      cases hsd : specificDay with
      | none =>
        rw [hsd] at hs
        cases hs
      | some sd =>
        rw [hsd] at h
        exact ⟨sd, rfl, (Option.some.inj h).symm⟩
    · rw [if_neg hs] at h
      cases h

theorem resolveRowDay_shape (day specificDay : Option String) (fechaIndex : Option Nat)
    (cells : List String) (rd : String)
    (hday : day = none ∨ ∃ sd, specificDay = some sd ∧ day = some (pad2 sd))
    (h : resolveRowDay day specificDay fechaIndex cells = some rd) :
    (rd.data ≠ [] ∧ rd.data.all Char.isDigit ∧ 2 ≤ rd.length) ∨
      ∃ sd, specificDay = some sd ∧ rd = pad2 sd := by
  cases fechaIndex with
  | none =>
    simp only [resolveRowDay] at h
    exact Or.inr (dayTail_shape day specificDay rd hday h)
  | some fi =>
    by_cases hfi : fi < cells.length
    · cases hm : findDateMatch (jsTrim (cells.getD fi "")).data with
      | none =>
        simp only [resolveRowDay, hfi, if_true, hm] at h
        exact Or.inr (dayTail_shape day specificDay rd hday h)
      | some g =>
        obtain ⟨m1, m2, m3⟩ := g
        obtain ⟨hm1, hm2, hm3⟩ := findDateMatch_digits _ _ _ _ hm
        simp only [resolveRowDay, hfi, if_true, hm] at h
        by_cases h31 : 31 < digitsToNat m3
        · rw [if_pos h31] at h
          have hp := pad2_shape m1 hm1.1 hm1.2
          have htrue : optTruthy (some (pad2 m1)) = true := by
            simp [optTruthy, str_ne_empty_of_data _ hp.1]
          rw [if_pos htrue] at h
          rw [← Option.some.inj h]
          exact Or.inl hp
        · rw [if_neg h31] at h
          by_cases h31b : 31 < digitsToNat m1
          · rw [if_pos h31b] at h
            have hp := pad2_shape m3 hm3.1 hm3.2
            have htrue : optTruthy (some (pad2 m3)) = true := by
              simp [optTruthy, str_ne_empty_of_data _ hp.1]
            rw [if_pos htrue] at h
            rw [← Option.some.inj h]
            exact Or.inl hp
          · rw [if_neg h31b] at h
            have hp := pad2_shape m2 hm2.1 hm2.2
            have htrue : optTruthy (some (pad2 m2)) = true := by
              simp [optTruthy, str_ne_empty_of_data _ hp.1]
            rw [if_pos htrue] at h
            rw [← Option.some.inj h]
            exact Or.inl hp
    · simp only [resolveRowDay, hfi, if_false] at h
      exact Or.inr (dayTail_shape day specificDay rd hday h)

theorem mem_processStationCell
    (parameter year month rowDay formattedHour stationName text : String) (o : Obs)
    (ho : o ∈ processStationCell parameter year month rowDay formattedHour
      stationName text) :
    o.date = year ++ "-" ++ month ++ "-" ++ rowDay ∧ o.hour = formattedHour := by
  simp only [processStationCell] at ho
  by_cases h1 : jsTrim text = ""
  · rw [if_pos h1] at ho
    cases ho
  · rw [if_neg h1] at ho
    by_cases h2 : missingTokens.contains (jsToLower (jsTrim text)) = true
    · rw [if_pos h2] at ho
      rw [List.mem_singleton] at ho
      subst ho
      exact ⟨rfl, rfl⟩
    · rw [if_neg h2] at ho
      by_cases h3 : String.mk ((jsTrim text).data.filter
          (fun c => c.isDigit || c = '.')) = ""
      · rw [if_pos h3] at ho
        cases ho
      · rw [if_neg h3] at ho
        cases hp : jsParseFloatClean (String.mk ((jsTrim text).data.filter
            (fun c => c.isDigit || c = '.'))) with
        | none =>
          rw [hp] at ho
          cases ho
        | some v =>
          rw [hp] at ho
          rw [List.mem_singleton] at ho
          subst ho
          exact ⟨rfl, rfl⟩

theorem mem_processDataRow (parameter year month : String)
    (day specificDay : Option String) (specificHour : Option Nat)
    (fechaIndex : Option Nat) (horaIndex stationStartIndex : Nat)
    (stationIndices : List (String × Nat)) (now : Now) (cells : List String)
    (o : Obs)
    (ho : o ∈ processDataRow parameter year month day specificDay specificHour
      fechaIndex horaIndex stationStartIndex stationIndices now cells) :
    ∃ hr : Nat, hr ≤ 23 ∧ o.hour = natPad2 hr ∧
      ∃ rd, resolveRowDay day specificDay fechaIndex cells = some rd ∧
        o.date = year ++ "-" ++ month ++ "-" ++ rd := by
  by_cases hcl : cells.length ≤ stationStartIndex
  · simp [processDataRow, hcl] at ho
  · cases hrd : resolveRowDay day specificDay fechaIndex cells with
    | none => simp [processDataRow, hcl, hrd] at ho
    | some rd =>
      cases hh : extractRowHour horaIndex cells with
      | none => simp [processDataRow, hcl, hrd, hh] at ho
      | some hr =>
        by_cases h23 : 23 < hr
        · simp [processDataRow, hcl, hrd, hh, h23] at ho
        · simp [processDataRow, hcl, hrd, hh, h23] at ho
          obtain ⟨hsh, hfut, a, b, hab, hb, hcell⟩ := ho
          obtain ⟨hdate, hhour⟩ := mem_processStationCell _ _ _ _ _ _ _ _ hcell
          exact ⟨hr, by omega, hhour, rd, rfl, hdate⟩

theorem natPad2_hour_shape : ∀ hr : Nat, hr < 24 →
    (natPad2 hr).length = 2 ∧ (natPad2 hr).data.all Char.isDigit = true := by
  decide

/-- C7 fails as stated for the date form: a malformed fecha cell
`"123/4/2025"` matches the date pattern with a three-digit day group, the
year-position heuristic picks `"123"` as the day, and the emitted
observation has date `"2024-03-123"`, which is not of the form YYYY-MM-DD;
the hour clauses of the claim do hold. -/
theorem c7_counterexample :
    parseAirQualityHtmlBody html100
      [[["x"], ["Fecha", "Hora", "AAA"], ["123/4/2025", "1", "42"]]]
      "o3" "2024" "03" none none none now0 =
      [{ date := "2024-03-123", hour := "01", value := some 42, rawValue := "42",
         station := "AAA", parameter := "o3" }] := by
  decide

/-- C7 (amended): every emitted observation has a two-character zero-padded
hour representing an integer in [0,23], and a date built as
`year-month-day` from the request year and month, where the day piece is
either a nonempty all-digit string of length at least two (resolved from a
fecha cell, zero-padded but possibly longer than two digits) or the
zero-padded `specificDay`; and a data row whose hour cell yields no integer
in [0,23] contributes zero observations. -/
theorem c7_observation_shape (html : String) (tables : List (List (List String)))
    (parameter year month : String) (specificDay : Option String)
    (specificHour : Option Nat) (specificStation : Option String) (now : Now) :
    (∀ o ∈ parseAirQualityHtmlBody html tables parameter year month specificDay
        specificHour specificStation now,
      (∃ hr : Nat, hr ≤ 23 ∧ o.hour = natPad2 hr ∧ o.hour.length = 2 ∧
        o.hour.data.all Char.isDigit = true) ∧
      (∃ d2 : String, o.date = year ++ "-" ++ month ++ "-" ++ d2 ∧
        ((d2.data ≠ [] ∧ d2.data.all Char.isDigit = true ∧ 2 ≤ d2.length) ∨
          ∃ sd, specificDay = some sd ∧ d2 = pad2 sd))) ∧
    (∀ (day2 : Option String) (fechaIndex : Option Nat)
        (horaIndex stationStartIndex : Nat) (stationIndices : List (String × Nat))
        (cells : List String),
      (∀ n, extractRowHour horaIndex cells = some n → 23 < n) →
      processDataRow parameter year month day2 specificDay specificHour fechaIndex
        horaIndex stationStartIndex stationIndices now cells = []) := by
  constructor
  · intro o ho
    unfold parseAirQualityHtmlBody at ho
    by_cases hlen : html.length < 100
    · simp [hlen] at ho
    · simp only [hlen, if_false] at ho
      cases tables with
      | nil => simp at ho
      | cons t0 rest =>
        by_cases hdt : (selectDataTable t0 rest).length < 2
        · simp [hdt] at ho
        · simp only [hdt, if_false] at ho
          cases hh : resolvedHeaderCells (selectDataTable t0 rest) parameter with
          | none => simp [hh] at ho
          | some headerCells =>
            cases hhora : findHeaderIdx "hora" (headerCells.map jsTrim) with
            | none => simp [hh, parseWithHeader, hhora] at ho
            | some hi =>
              simp only [hh, parseWithHeader, hhora] at ho
              obtain ⟨cells, hcells, hrow⟩ := List.mem_flatMap.mp ho
              obtain ⟨hr, h23, hhour, rd, hrd, hdate⟩ :=
                mem_processDataRow _ _ _ _ _ _ _ _ _ _ _ _ _ hrow
              refine ⟨⟨hr, h23, hhour, ?_, ?_⟩, rd, hdate, ?_⟩
              · rw [hhour]
                exact (natPad2_hour_shape hr (by omega)).1
              · rw [hhour]
                exact (natPad2_hour_shape hr (by omega)).2
              · refine resolveRowDay_shape _ _ _ _ _ ?_ hrd
                by_cases hsd : optTruthy specificDay = true
                · cases hsdc : specificDay with
                  | none =>
                    rw [hsdc] at hsd
                    cases hsd
                  | some sd =>
                    right
                    rw [hsdc] at hsd
                    exact ⟨sd, rfl, by simp [hsdc, hsd]⟩
                · left
                  simp [hsd]
  · intro day2 fechaIndex horaIndex stationStartIndex stationIndices cells hbad
    unfold processDataRow
    by_cases hcl : cells.length ≤ stationStartIndex
    · rw [if_pos hcl]
    · rw [if_neg hcl]
      cases hrd : resolveRowDay day2 specificDay fechaIndex cells with
      | none => rfl
      | some rd =>
        cases hh : extractRowHour horaIndex cells with
        | none => rfl
        | some hr =>
          have h23 : 23 < hr := hbad hr hh
          simp [h23]

/-- Witness for C7: the observation emitted from a well-formed row has a
valid two-digit hour and an all-digit day piece, and a row whose hour cell
reads "99" contributes nothing. -/
theorem c7_witness :
    ((∃ hr : Nat, hr ≤ 23 ∧ ("01" : String) = natPad2 hr ∧
        ("01" : String).length = 2 ∧ ("01" : String).data.all Char.isDigit = true) ∧
      (∃ d2 : String, ("2024-03-01" : String) = "2024" ++ "-" ++ "03" ++ "-" ++ d2 ∧
        ((d2.data ≠ [] ∧ d2.data.all Char.isDigit = true ∧ 2 ≤ d2.length) ∨
          ∃ sd, (none : Option String) = some sd ∧ d2 = pad2 sd))) ∧
    processDataRow "o3" "2024" "03" none none none (some 0) 1 2 [("AAA", 2)] now0
      ["01/02/2025", "99", "42"] = [] := by
  have h := c7_observation_shape html100
    [[["x"], ["Fecha", "Hora", "AAA"], ["01/02/2025", "1", "42"]]]
    "o3" "2024" "03" none none none now0
  have h1 := h.1 ⟨"2024-03-01", "01", some 42, "42", "AAA", "o3"⟩ (by decide)
  refine ⟨h1, ?_⟩
  apply h.2
  intro n hn
  have he : extractRowHour 1 ["01/02/2025", "99", "42"] = some 99 := rfl
  rw [he] at hn
  have h99 := Option.some.inj hn
  omega
